import Mathlib

/-!
Shallow embedding of the device-api core: the allocation engine of
`src/find.rs` (`find_devices_in`) and the blocking status resolver of
`src/blocking.rs` (`get_device_status`, `get_status_all`, `expand_status`).

Rust `HashMap` values are modelled as association lists queried through
`alGet` and updated through `alInsert`; only membership-style queries are
ever performed on them, matching the source.  Rust `HashSet<u8>` values
are modelled as `List Nat` queried by membership.  The fallible parts are
modelled with `Except` (for `DeviceResult`) and with `Option` where the
only failure mode is a `.unwrap()` panic.
-/

namespace DeviceApi

/-- Architecture tag of a device.  Modelled from the spec: `Arch` lives in
`src/arch.rs`, which is not part of the analysed sources; the spec describes
it as an enum over supported device families. -/
inductive Arch
  | warboy
  | renegade
deriving DecidableEq

/-- Grouping mode of a device file (`DeviceMode` in `src/device.rs`, not part
of the analysed sources).  Modelled from the spec: Single covers one core,
Fusion a fixed group, MultiCore the whole device. -/
inductive DeviceMode
  | single
  | fusion
  | multiCore
deriving DecidableEq

/-- Status of one core (`CoreStatus` in `src/device.rs`).  Modelled from the
spec: Available, or Occupied by a given device-file identifier. -/
inductive CoreStatus
  | available
  | occupied (by_file : String)
deriving DecidableEq

/-- Result of probing a device status (`DeviceStatus` in `src/status.rs`),
as used by `get_device_status` in `src/blocking.rs`. -/
inductive DeviceStatus
  | available
  | occupied
deriving DecidableEq

/-- Operating-system error of a failed open, keeping the only observable
the code inspects: `raw_os_error()` (an `Option`), plus an opaque message
so that distinct errors stay distinct. -/
structure OsError where
  raw_os_error : Option Int
  message : String
deriving DecidableEq

/-- Outcome of `OpenOptions::new().read(true).write(true).open(path)`:
either the open succeeded or it failed with an OS error. -/
inductive OpenResult
  | opened
  | failed (err : OsError)
deriving DecidableEq

/-- Modelled from the spec: `DeviceFile` (in `src/device.rs`, not part of the
analysed sources) carries its owning device index, a display name, a
filesystem path, the list of core indices it covers, and its grouping mode —
exactly the fields `find.rs` and `blocking.rs` read. -/
structure DeviceFile where
  device_index : Nat
  name : String
  path : String
  indices : List Nat
  mode : DeviceMode
deriving DecidableEq

/-- Modelled from the spec: `DeviceFile::is_multicore` tests whether the
file's grouping mode is MultiCore. -/
def DeviceFile.is_multicore (f : DeviceFile) : Bool :=
  decide (f.mode = DeviceMode.multiCore)

/-- Modelled from the spec: `Device` (in `src/device.rs`) carries its stable
index, architecture tag, ordered list of cores and ordered list of device
files — the fields read by `find.rs` and `blocking.rs`. -/
structure Device where
  device_index : Nat
  arch : Arch
  cores : List Nat
  dev_files : List DeviceFile
deriving DecidableEq

/-- A device together with its per-core status snapshot
(`DeviceWithStatus` in `src/find.rs`); the `HashMap<CoreIdx, CoreStatus>`
is modelled as an association list. -/
structure DeviceWithStatus where
  device : Device
  statuses : List (Nat × CoreStatus)
deriving DecidableEq

/-- Lookup in an association list modelling `HashMap::get`. -/
def alGet {α : Type} : List (Nat × α) → Nat → Option α
  | [], _ => none
  | (k, v) :: rest, q => if k = q then some v else alGet rest q

/-- Update of an association list modelling `HashMap::insert`: replaces the
binding of the key if present, otherwise appends a fresh binding. -/
def alInsert {α : Type} : List (Nat × α) → Nat → α → List (Nat × α)
  | [], k, v => [(k, v)]
  | (k', v') :: rest, k, v =>
    if k' = k then (k, v) :: rest else (k', v') :: alInsert rest k v

/-- Configuration request (`DeviceConfig` in `src/find.rs`): architecture,
grouping mode and requested count. -/
structure DeviceConfig where
  arch : Arch
  mode : DeviceMode
  count : Nat
deriving DecidableEq

/-- The staged builder of `src/find.rs`: `DeviceConfig::warboy()` starts from
architecture Warboy, mode Single, count 1. -/
def DeviceConfig.warboy : DeviceConfig :=
  { arch := Arch.warboy, mode := DeviceMode.single, count := 1 }

/-- Builder step `WarboyConfigBuilder::multicore` of `src/find.rs`. -/
def DeviceConfig.multicore (c : DeviceConfig) : DeviceConfig :=
  { c with mode := DeviceMode.multiCore }

/-- Builder step `WarboyConfigBuilder::fused` of `src/find.rs`. -/
def DeviceConfig.fused (c : DeviceConfig) : DeviceConfig :=
  { c with mode := DeviceMode.fusion }

/-- Builder step `WarboyConfigBuilder::count` of `src/find.rs`. -/
def DeviceConfig.withCount (c : DeviceConfig) (n : Nat) : DeviceConfig :=
  { c with count := n }

/-- Cores of a snapshot whose status is not Available: the seeding filter of
`find_devices_in` (`src/find.rs` lines 87-92). -/
def nonAvailCores (statuses : List (Nat × CoreStatus)) : List Nat :=
  (statuses.filter (fun p => decide (p.2 ≠ CoreStatus.available))).map Prod.fst

/-- Seeding loop of `find_devices_in` (`src/find.rs` lines 84-94): one
committed-core entry per device, keyed by device index, holding the cores
whose snapshot status is not Available. -/
def seedAllocated (devices : List DeviceWithStatus) : List (Nat × List Nat) :=
  devices.foldl
    (fun m dw => alInsert m dw.device.device_index (nonAvailCores dw.statuses)) []

/-- Inner file scan of `find_devices_in` (`src/find.rs` lines 110-119): the
first device file whose mode equals the requested mode and none of whose
indices is already committed. -/
def probeFiles (mode : DeviceMode) (committed : List Nat) :
    List DeviceFile → Option DeviceFile
  | [] => none
  | f :: rest =>
    if f.mode = mode then
      if f.indices.any (fun i => decide (i ∈ committed)) then
        probeFiles mode committed rest
      else some f
    else probeFiles mode committed rest

/-- Whether some file of the list has the given mode; used to model exactly
when the per-index `.unwrap()` of `src/find.rs` line 116 executes. -/
def hasModeFile (mode : DeviceMode) (fs : List DeviceFile) : Bool :=
  fs.any (fun f => decide (f.mode = mode))

/-- Outcome of one scan over all devices for a single request slot. -/
inductive ScanOut
  | panic
  | notFound
  | found (f : DeviceFile) (d : Device)
deriving DecidableEq

/-- Device scan of `find_devices_in` for one request slot (`src/find.rs`
lines 99-130): skip architecture mismatches, skip a device with committed
cores when the request mode is MultiCore, otherwise take the first suitable
file.  A lookup of a device index missing from the committed map yields
`ScanOut.panic` exactly where the source `.unwrap()`s would run: in the
MultiCore early-exit test (line 105), and in the per-index conflict test or
the post-selection update (lines 116 and 123) whenever a mode-matching file
exists. -/
def scanDevices (config : DeviceConfig) (allocated : List (Nat × List Nat)) :
    List DeviceWithStatus → ScanOut
  | [] => ScanOut.notFound
  | dw :: rest =>
    if config.arch = dw.device.arch then
      match alGet allocated dw.device.device_index with
      | none =>
        if config.mode = DeviceMode.multiCore ∨
            hasModeFile config.mode dw.device.dev_files then
          ScanOut.panic
        else scanDevices config allocated rest
      | some committed =>
        if config.mode = DeviceMode.multiCore ∧ committed ≠ [] then
          scanDevices config allocated rest
        else
          match probeFiles config.mode committed dw.device.dev_files with
          | none => scanDevices config allocated rest
          | some f => ScanOut.found f dw.device
    else scanDevices config allocated rest

/-- Outer slot loop of `find_devices_in` (`src/find.rs` lines 98-134): for
each remaining slot run one device scan; on success commit the file's
indices (plus every device core for a MultiCore file) and recurse, on an
exhausted scan return the empty list, and on a `.unwrap()` panic return
`none`. -/
def allocLoop (config : DeviceConfig) (devices : List DeviceWithStatus) :
    Nat → List (Nat × List Nat) → List DeviceFile → Option (List DeviceFile)
  | 0, _, found => some found
  | Nat.succ n, allocated, found =>
    match scanDevices config allocated devices with
    | ScanOut.panic => none
    | ScanOut.notFound => some []
    | ScanOut.found f d =>
      (alGet allocated d.device_index).bind (fun used =>
        allocLoop config devices n
          (alInsert allocated d.device_index
            (used ++ f.indices ++ (if f.is_multicore then d.cores else [])))
          (found ++ [f]))

/-- The allocation engine `find_devices_in` of `src/find.rs`: seed the
committed map from the snapshots, then fill `config.count` slots.  The
result is `some` of the found list (the `Ok` of the source, which never
constructs an error) and `none` models a `.unwrap()` panic. -/
def find_devices_in (config : DeviceConfig) (devices : List DeviceWithStatus) :
    Option (List DeviceFile) :=
  allocLoop config devices config.count (seedAllocated devices) []

/-- The probe `get_device_status` of `src/blocking.rs` lines 86-102, over the
outcome of the open: success is Available, failure with
`raw_os_error().unwrap_or(0) == 16` is Occupied, any other failure is
propagated as the error itself. -/
def get_device_status (res : OpenResult) : Except OsError DeviceStatus :=
  match res with
  | OpenResult.opened => Except.ok DeviceStatus.available
  | OpenResult.failed err =>
    if err.raw_os_error.getD 0 = 16 then Except.ok DeviceStatus.occupied
    else Except.error err

/-- Modelled from the spec: `Device::new_status_map` (in `src/device.rs`, not
part of the analysed sources) initialises every core of the device to
Available. -/
def new_status_map (device : Device) : List (Nat × CoreStatus) :=
  device.cores.map (fun c => (c, CoreStatus.available))

/-- Cores marked for an occupied file by `get_status_all` (`src/blocking.rs`
lines 109-114): the file's own indices, chained with every device core when
the file is MultiCore. -/
def occupyCores (file : DeviceFile) (device : Device) : List Nat :=
  file.indices ++ (if file.is_multicore then device.cores else [])

/-- Marking step of `get_status_all` (`src/blocking.rs` line 115): insert
Occupied-by-this-file for each core the occupied file locks. -/
def markOccupied (file : DeviceFile) (device : Device)
    (m : List (Nat × CoreStatus)) : List (Nat × CoreStatus) :=
  (occupyCores file device).foldl
    (fun acc c => alInsert acc c (CoreStatus.occupied file.name)) m

/-- File loop of `get_status_all` (`src/blocking.rs` lines 107-118): probe
each device file in order, propagate any non-busy error immediately, and
mark the cores of each occupied file. -/
def statusLoop (probe : String → OpenResult) (device : Device) :
    List DeviceFile → List (Nat × CoreStatus) →
    Except OsError (List (Nat × CoreStatus))
  | [], m => Except.ok m
  | file :: rest, m =>
    match get_device_status (probe file.path) with
    | Except.error e => Except.error e
    | Except.ok s =>
      if s = DeviceStatus.occupied then
        statusLoop probe device rest (markOccupied file device m)
      else statusLoop probe device rest m

/-- The status resolver `get_status_all` of `src/blocking.rs` lines 104-120:
start from the all-Available map and fold the file loop over the device's
files.  The open probe is passed in as a function from paths to outcomes. -/
def get_status_all (probe : String → OpenResult) (device : Device) :
    Except OsError (List (Nat × CoreStatus)) :=
  statusLoop probe device device.dev_files (new_status_map device)

/-- The aggregation `expand_status` of `src/blocking.rs` lines 75-84: resolve
every device in order, aborting on the first error. -/
def expand_status (probe : String → OpenResult) :
    List Device → Except OsError (List DeviceWithStatus)
  | [] => Except.ok []
  | device :: rest =>
    match get_status_all probe device with
    | Except.error e => Except.error e
    | Except.ok m =>
      match expand_status probe rest with
      | Except.error e => Except.error e
      | Except.ok tl => Except.ok ({ device := device, statuses := m } :: tl)

/-- Relation between two optional committed-core lists: both absent, or both
present up to permutation. -/
def OptPerm : Option (List Nat) → Option (List Nat) → Prop
  | none, none => True
  | some s, some t => s.Perm t
  | _, _ => False

/-- Two committed maps agreeing, entrywise, up to permutation of the stored
core lists. -/
def MapEquiv (m m' : List (Nat × List Nat)) : Prop :=
  ∀ k, OptPerm (alGet m k) (alGet m' k)

/-- Pointwise relation between two device lists: same devices, with status
snapshots listed in possibly different orders — the only freedom hash-map
iteration order has. -/
def SameDevices (ds ds' : List DeviceWithStatus) : Prop :=
  List.Forall₂
    (fun a b => a.device = b.device ∧ a.statuses.Perm b.statuses) ds ds'

/-- A core covered by some device file of the list that probed Occupied —
directly through the file's index list or through the whole-device lockout
of a MultiCore file. -/
def OccCovered (probe : String → OpenResult) (device : Device)
    (fs : List DeviceFile) (c : Nat) : Prop :=
  ∃ f ∈ fs,
    get_device_status (probe f.path) = Except.ok DeviceStatus.occupied ∧
      c ∈ occupyCores f device

/-- Characterization of a status map: its keys are exactly the device's
cores, with an Occupied value exactly on the cores satisfying `Q`. -/
def StatusInv (device : Device) (Q : Nat → Prop)
    (m : List (Nat × CoreStatus)) : Prop :=
  ∀ c, (c ∉ device.cores → alGet m c = none) ∧
    (c ∈ device.cores →
      (Q c → ∃ s, alGet m c = some (CoreStatus.occupied s)) ∧
      (¬ Q c → alGet m c = some CoreStatus.available))

/-! Concrete data used by the witnesses: one warboy device with two cores,
shaped like the `npu0` fixture of the source's tests. -/

/-- Witness data: the MultiCore file of the example device. -/
def exMulti : DeviceFile :=
  { device_index := 0, name := "npu0", path := "npu0",
    indices := [], mode := DeviceMode.multiCore }

/-- Witness data: the first single-core file of the example device. -/
def exFile0 : DeviceFile :=
  { device_index := 0, name := "npu0pe0", path := "npu0pe0",
    indices := [0], mode := DeviceMode.single }

/-- Witness data: the fused file of the example device. -/
def exFused : DeviceFile :=
  { device_index := 0, name := "npu0pe0-1", path := "npu0pe0-1",
    indices := [0, 1], mode := DeviceMode.fusion }

/-- Witness data: the second single-core file of the example device. -/
def exFile1 : DeviceFile :=
  { device_index := 0, name := "npu0pe1", path := "npu0pe1",
    indices := [1], mode := DeviceMode.single }

/-- Witness data: a two-core warboy device. -/
def exDevice : Device :=
  { device_index := 0, arch := Arch.warboy, cores := [0, 1],
    dev_files := [exMulti, exFile0, exFused, exFile1] }

/-- Witness data: an all-Available snapshot of the example device. -/
def exDW : DeviceWithStatus :=
  { device := exDevice,
    statuses := [(0, CoreStatus.available), (1, CoreStatus.available)] }

/-- Witness data: the example device list. -/
def exDevices : List DeviceWithStatus := [exDW]

/-- Witness data: the example device with its snapshot listed in the
opposite order. -/
def exDWrev : DeviceWithStatus :=
  { device := exDevice,
    statuses := [(1, CoreStatus.available), (0, CoreStatus.available)] }

/-- Witness data: the example device list with a permuted snapshot. -/
def exDevicesRev : List DeviceWithStatus := [exDWrev]

/-- Witness data: a Single-mode request for one warboy core. -/
def exConfig : DeviceConfig :=
  { arch := Arch.warboy, mode := DeviceMode.single, count := 1 }

/-- Witness data: a MultiCore-mode request for one warboy device. -/
def exConfigMC : DeviceConfig :=
  { arch := Arch.warboy, mode := DeviceMode.multiCore, count := 1 }

/-- Witness data: the "resource busy" OS error. -/
def exBusyErr : OsError := { raw_os_error := some 16, message := "busy" }

/-- Witness data: a "permission denied" OS error. -/
def exPermErr : OsError := { raw_os_error := some 13, message := "denied" }

/-- Witness data: a probe that reports the MultiCore file busy and every
other file free. -/
def exProbeBusy : String → OpenResult := fun p =>
  if p = "npu0" then OpenResult.failed exBusyErr else OpenResult.opened

/-- Witness data: a probe that fails on `npu0pe1` with a non-busy error. -/
def exProbeErr : String → OpenResult := fun p =>
  if p = "npu0pe1" then OpenResult.failed exPermErr else OpenResult.opened

/-- Witness data: the status map resolved under `exProbeBusy`. -/
def exBusyMap : List (Nat × CoreStatus) :=
  [(0, CoreStatus.occupied "npu0"), (1, CoreStatus.occupied "npu0")]

/-- Core `c` of the device `dw` counts as committed after the files `taken`
have been selected: it was non-Available in the input snapshot, or it is
covered by a selected file of that device — directly through the file's index
list, or through the whole-device lockout of a MultiCore file. -/
def CommittedCore (taken : List DeviceFile) (dw : DeviceWithStatus) (c : Nat) :
    Prop :=
  c ∈ nonAvailCores dw.statuses ∨
    ∃ f ∈ taken, f.device_index = dw.device.device_index ∧
      (c ∈ f.indices ∨ (f.mode = DeviceMode.multiCore ∧ c ∈ dw.device.cores))

/-- The committed-core list `s` kept for device `dw` holds exactly the
committed cores after selecting `taken`. -/
def CommitSpec (taken : List DeviceFile) (dw : DeviceWithStatus)
    (s : List Nat) : Prop :=
  ∀ c, c ∈ s ↔ CommittedCore taken dw c

/-- Loop invariant of `find_devices_in`: the committed map holds, for every
input device, exactly the committed cores after the selections made so far. -/
def AllocInv (devices : List DeviceWithStatus)
    (allocated : List (Nat × List Nat)) (found : List DeviceFile) : Prop :=
  ∀ dw ∈ devices, ∃ s, alGet allocated dw.device.device_index = some s ∧
    CommitSpec found dw s

/-- Data-model invariant of the spec: device indices are unique within the
process's view. -/
def IndexNodup (devices : List DeviceWithStatus) : Prop :=
  (devices.map (fun dw => dw.device.device_index)).Nodup

/-- Data-model invariant of the spec: each device file records the index of
its owning device. -/
def FilesOwned (devices : List DeviceWithStatus) : Prop :=
  ∀ dw ∈ devices, ∀ f ∈ dw.device.dev_files,
    f.device_index = dw.device.device_index

/-- Cores covered by a device file, identified as (device index, core index)
pairs. -/
def coveredPairs (f : DeviceFile) : List (Nat × Nat) :=
  f.indices.map (fun i => (f.device_index, i))

/-- Cores marked non-Available anywhere in the input snapshot, identified as
(device index, core index) pairs. -/
def snapshotBusy (devices : List DeviceWithStatus) : List (Nat × Nat) :=
  devices.flatMap
    (fun dw => (nonAvailCores dw.statuses).map
      (fun i => (dw.device.device_index, i)))

/-- Two device files with disjoint covered-core sets. -/
def DisjointCover (f g : DeviceFile) : Prop :=
  ∀ p ∈ coveredPairs f, p ∉ coveredPairs g

/-- Invariant on the accumulated selections: pairwise disjoint covered cores,
disjointness from the snapshot's busy cores, and mode/ownership facts. -/
def GoodFound (config : DeviceConfig) (devices : List DeviceWithStatus)
    (found : List DeviceFile) : Prop :=
  List.Pairwise DisjointCover found ∧
  (∀ f ∈ found, ∀ p ∈ coveredPairs f, p ∉ snapshotBusy devices) ∧
  (∀ f ∈ found, f.mode = config.mode ∧ ∃ dw ∈ devices, f ∈ dw.device.dev_files)

/-- Each selected file was taken from a device none of whose cores was
committed at the moment of selection. -/
def SelFree (devices : List DeviceWithStatus) (found : List DeviceFile) :
    Prop :=
  ∀ (k : Nat) (hk : k < found.length), ∀ dw ∈ devices,
    dw.device.device_index = (found.get ⟨k, hk⟩).device_index →
    ∀ c, ¬ CommittedCore (found.take k) dw c

/-! Basic lemmas about the association-list model of `HashMap`. -/

theorem alGet_alInsert {α : Type} (m : List (Nat × α)) (k q : Nat) (v : α) :
    alGet (alInsert m k v) q = if k = q then some v else alGet m q := by
  induction m with
  | nil => simp [alInsert, alGet]
  | cons p rest ih =>
    obtain ⟨k', v'⟩ := p
    by_cases h : k' = k
    · subst h
      by_cases hq : k' = q <;> simp [alInsert, alGet, hq]
    · by_cases hq : k' = q
      · subst hq
        have hk : ¬ k = k' := fun h' => h h'.symm
        simp [alInsert, alGet, h, hk]
      · simp [alInsert, alGet, h, hq, ih]

theorem alGet_alInsert_isSome {α : Type} (m : List (Nat × α)) (k q : Nat) (v : α)
    (h : (alGet m q).isSome) : (alGet (alInsert m k v) q).isSome := by
  rw [alGet_alInsert]
  by_cases hk : k = q <;> simp [hk, h]

/-! Lemmas about the seeding loop of `find_devices_in`. -/

theorem seedFold_isSome_of_init (devices : List DeviceWithStatus)
    (m : List (Nat × List Nat)) (q : Nat) (h : (alGet m q).isSome) :
    (alGet (devices.foldl
      (fun m dw => alInsert m dw.device.device_index (nonAvailCores dw.statuses)) m)
      q).isSome := by
  induction devices generalizing m with
  | nil => simpa using h
  | cons dw rest ih =>
    exact ih _ (alGet_alInsert_isSome _ _ _ _ h)

theorem seedFold_isSome_of_mem (devices : List DeviceWithStatus) :
    ∀ (m : List (Nat × List Nat)) (dw : DeviceWithStatus), dw ∈ devices →
    (alGet (devices.foldl
      (fun m dw => alInsert m dw.device.device_index (nonAvailCores dw.statuses)) m)
      dw.device.device_index).isSome := by
  induction devices with
  | nil => intro m dw hdw; cases hdw
  | cons hd rest ih =>
    intro m dw hdw
    rcases List.mem_cons.mp hdw with h | h
    · subst h
      exact seedFold_isSome_of_init rest _ _
        (by rw [alGet_alInsert]; simp)
    · exact ih _ dw h

theorem seedAllocated_isSome (devices : List DeviceWithStatus)
    (dw : DeviceWithStatus) (hdw : dw ∈ devices) :
    (alGet (seedAllocated devices) dw.device.device_index).isSome :=
  seedFold_isSome_of_mem devices [] dw hdw

/-! Lemmas about the device scan. -/

theorem probeFiles_spec (mode : DeviceMode) (committed : List Nat) :
    ∀ (fs : List DeviceFile) (f : DeviceFile),
      probeFiles mode committed fs = some f →
      f ∈ fs ∧ f.mode = mode ∧ ∀ i ∈ f.indices, i ∉ committed := by
  intro fs
  induction fs with
  | nil => intro f h; simp [probeFiles] at h
  | cons g rest ih =>
    intro f h
    rw [probeFiles] at h
    split at h
    · split at h
      · obtain ⟨h1, h2, h3⟩ := ih f h
        exact ⟨List.mem_cons_of_mem _ h1, h2, h3⟩
      · cases h
        rename_i hm hc
        refine ⟨List.mem_cons_self _ _, hm, ?_⟩
        intro i hi hmem
        exact hc (List.any_eq_true.mpr ⟨i, hi, by simpa using hmem⟩)
    · obtain ⟨h1, h2, h3⟩ := ih f h
      exact ⟨List.mem_cons_of_mem _ h1, h2, h3⟩

theorem scanDevices_ne_panic (config : DeviceConfig)
    (allocated : List (Nat × List Nat)) (devices : List DeviceWithStatus)
    (h : ∀ dw ∈ devices, (alGet allocated dw.device.device_index).isSome) :
    scanDevices config allocated devices ≠ ScanOut.panic := by
  induction devices with
  | nil => simp [scanDevices]
  | cons dw rest ih =>
    have hd := h dw (List.mem_cons_self _ _)
    have hrest : ∀ d ∈ rest, (alGet allocated d.device.device_index).isSome :=
      fun d hd' => h d (List.mem_cons_of_mem _ hd')
    rw [scanDevices]
    split
    · split
      · rename_i hget
        rw [hget] at hd
        simp at hd
      · split
        · exact ih hrest
        · split
          · exact ih hrest
          · simp
    · exact ih hrest

theorem scanDevices_found_spec (config : DeviceConfig)
    (allocated : List (Nat × List Nat)) :
    ∀ (devices : List DeviceWithStatus) (f : DeviceFile) (d : Device),
      scanDevices config allocated devices = ScanOut.found f d →
      ∃ dw ∈ devices, dw.device = d ∧ f ∈ d.dev_files ∧ f.mode = config.mode ∧
        config.arch = d.arch ∧
        ∃ s, alGet allocated d.device_index = some s ∧
          (∀ i ∈ f.indices, i ∉ s) ∧
          (config.mode = DeviceMode.multiCore → s = []) := by
  intro devices
  induction devices with
  | nil => intro f d h; simp [scanDevices] at h
  | cons dw rest ih =>
    intro f d h
    rw [scanDevices] at h
    split at h
    · rename_i harch
      split at h
      · split at h
        · cases h
        · obtain ⟨dw', h1, h2⟩ := ih f d h
          exact ⟨dw', List.mem_cons_of_mem _ h1, h2⟩
      · rename_i s hget
        split at h
        · obtain ⟨dw', h1, h2⟩ := ih f d h
          exact ⟨dw', List.mem_cons_of_mem _ h1, h2⟩
        · rename_i hmc
          split at h
          · obtain ⟨dw', h1, h2⟩ := ih f d h
            exact ⟨dw', List.mem_cons_of_mem _ h1, h2⟩
          · rename_i g hp
            cases h
            obtain ⟨hg1, hg2, hg3⟩ := probeFiles_spec _ _ _ _ hp
            refine ⟨dw, List.mem_cons_self _ _, rfl, hg1, hg2, harch, s, hget, hg3, ?_⟩
            intro hmode
            by_contra hne
            exact hmc ⟨hmode, hne⟩
    · obtain ⟨dw', h1, h2⟩ := ih f d h
      exact ⟨dw', List.mem_cons_of_mem _ h1, h2⟩

/-! Totality of the allocation loop. -/

theorem allocLoop_total (config : DeviceConfig) (devices : List DeviceWithStatus) :
    ∀ (n : Nat) (allocated : List (Nat × List Nat)) (found : List DeviceFile),
      (∀ dw ∈ devices, (alGet allocated dw.device.device_index).isSome) →
      ∃ l, allocLoop config devices n allocated found = some l := by
  intro n
  induction n with
  | zero => intro allocated found _; exact ⟨found, rfl⟩
  | succ n ih =>
    intro allocated found h
    rw [allocLoop]
    cases hscan : scanDevices config allocated devices with
    | panic => exact absurd hscan (scanDevices_ne_panic config allocated devices h)
    | notFound => exact ⟨[], rfl⟩
    | found f d =>
      obtain ⟨dw, hdw, hdev, -, -, -, s, hget, -⟩ :=
        scanDevices_found_spec config allocated devices f d hscan
      show ∃ l, ((alGet allocated d.device_index).bind fun used =>
        allocLoop config devices n
          (alInsert allocated d.device_index
            (used ++ f.indices ++ if f.is_multicore then d.cores else []))
          (found ++ [f])) = some l
      rw [hget, Option.some_bind]
      exact ih _ _ (fun dw' hdw' => alGet_alInsert_isSome _ _ _ _ (h dw' hdw'))

theorem find_devices_in_total (config : DeviceConfig)
    (devices : List DeviceWithStatus) :
    ∃ l, find_devices_in config devices = some l :=
  allocLoop_total config devices config.count (seedAllocated devices) []
    (fun dw hdw => seedAllocated_isSome devices dw hdw)

/-! All-or-nothing: length of a successful result. -/

theorem allocLoop_length (config : DeviceConfig) (devices : List DeviceWithStatus) :
    ∀ (n : Nat) (allocated : List (Nat × List Nat)) (found l : List DeviceFile),
      allocLoop config devices n allocated found = some l →
      l = [] ∨ l.length = found.length + n := by
  intro n
  induction n with
  | zero =>
    intro allocated found l h
    cases h
    exact Or.inr rfl
  | succ n ih =>
    intro allocated found l h
    rw [allocLoop] at h
    split at h
    · cases h
    · cases h
      exact Or.inl rfl
    · cases hg : alGet allocated _ with
      | none => rw [hg] at h; cases h
      | some used =>
        rw [hg, Option.some_bind] at h
        rcases ih _ _ _ h with h1 | h1
        · exact Or.inl h1
        · refine Or.inr ?_
          rw [h1]
          simp
          omega

/-- Mode and architecture facts carried by every selected file. -/
def ModeArchOk (config : DeviceConfig) (devices : List DeviceWithStatus)
    (f : DeviceFile) : Prop :=
  f.mode = config.mode ∧
    ∃ dw ∈ devices, f ∈ dw.device.dev_files ∧ dw.device.arch = config.arch

theorem allocLoop_modeArch (config : DeviceConfig) (devices : List DeviceWithStatus) :
    ∀ (n : Nat) (allocated : List (Nat × List Nat)) (found l : List DeviceFile),
      (∀ f ∈ found, ModeArchOk config devices f) →
      allocLoop config devices n allocated found = some l →
      ∀ f ∈ l, ModeArchOk config devices f := by
  intro n
  induction n with
  | zero =>
    intro allocated found l hfound h
    cases h
    exact hfound
  | succ n ih =>
    intro allocated found l hfound h
    rw [allocLoop] at h
    split at h
    · cases h
    · cases h
      intro f hf
      cases hf
    · rename_i f d hscan
      cases hg : alGet allocated d.device_index with
      | none => rw [hg] at h; cases h
      | some used =>
        rw [hg, Option.some_bind] at h
        refine ih _ _ _ ?_ h
        intro g hg'
        rcases List.mem_append.mp hg' with h1 | h1
        · exact hfound g h1
        · obtain ⟨dw, hdw, hdev, hfile, hmode, harch, -⟩ :=
            scanDevices_found_spec config allocated devices f d hscan
          have : g = f := by simpa using h1
          subst this
          exact ⟨hmode, dw, hdw, by rw [hdev]; exact hfile, by rw [hdev, ← harch]⟩

/-- Claim C10: `find_devices_in` is total — for every request and device list
it returns a result (the source's `Ok`), and in particular the committed-map
`.unwrap()` lookups cannot panic, because the map is seeded with an entry for
every device index before the search loop runs. -/
theorem find_devices_in_never_panics (config : DeviceConfig)
    (devices : List DeviceWithStatus) :
    ∃ l, find_devices_in config devices = some l :=
  find_devices_in_total config devices

/-- Claim C2: `find_devices_in` returns either exactly `config.count` device
files or the empty list; a request with count 0 returns the empty list as a
success, and no non-empty list shorter than the requested count is ever
returned. -/
theorem find_devices_in_all_or_nothing (config : DeviceConfig)
    (devices : List DeviceWithStatus) :
    ∃ l, find_devices_in config devices = some l ∧
      (l = [] ∨ l.length = config.count) ∧
      (config.count = 0 → l = []) := by
  obtain ⟨l, hl⟩ := find_devices_in_total config devices
  refine ⟨l, hl, ?_, ?_⟩
  · have := allocLoop_length config devices config.count (seedAllocated devices) [] l hl
    simpa using this
  · intro hc
    have := allocLoop_length config devices config.count (seedAllocated devices) [] l hl
    rcases this with h | h
    · exact h
    · rw [hc] at h
      simpa using List.length_eq_zero.mp (by simpa using h)

/-- Claim C6: every returned device file has the requested grouping mode and
belongs to a listed device of the requested architecture; consequently, if no
device of the requested architecture is present, the result is empty. -/
theorem find_devices_in_mode_arch (config : DeviceConfig)
    (devices : List DeviceWithStatus) :
    ∃ l, find_devices_in config devices = some l ∧
      (∀ f ∈ l, f.mode = config.mode ∧
        ∃ dw ∈ devices, f ∈ dw.device.dev_files ∧ dw.device.arch = config.arch) ∧
      ((∀ dw ∈ devices, dw.device.arch ≠ config.arch) → l = []) := by
  obtain ⟨l, hl⟩ := find_devices_in_total config devices
  have hma := allocLoop_modeArch config devices config.count
    (seedAllocated devices) [] l (by intro f hf; cases hf) hl
  refine ⟨l, hl, fun f hf => hma f hf, ?_⟩
  intro hnone
  cases l with
  | nil => rfl
  | cons f rest =>
    obtain ⟨-, dw, hdw, -, harch⟩ := hma f (List.mem_cons_self _ _)
    exact absurd harch (hnone dw hdw)

/-! List helpers for positional reasoning over the selection order. -/

theorem listGet_append_left {α : Type} :
    ∀ (l₁ l₂ : List α) (k : Nat) (h : k < l₁.length)
      (h' : k < (l₁ ++ l₂).length), (l₁ ++ l₂).get ⟨k, h'⟩ = l₁.get ⟨k, h⟩ := by
  intro l₁
  induction l₁ with
  | nil => intro l₂ k h h'; cases h
  | cons a rest ih =>
    intro l₂ k h h'
    cases k with
    | zero => rfl
    | succ k => exact ih l₂ k (Nat.lt_of_succ_lt_succ h) _

theorem listGet_append_last {α : Type} :
    ∀ (l : List α) (a : α) (h : l.length < (l ++ [a]).length),
      (l ++ [a]).get ⟨l.length, h⟩ = a := by
  intro l
  induction l with
  | nil => intro a h; rfl
  | cons b rest ih => intro a h; exact ih a _

theorem listTake_append {α : Type} :
    ∀ (l₁ l₂ : List α) (k : Nat), k ≤ l₁.length →
      (l₁ ++ l₂).take k = l₁.take k := by
  intro l₁
  induction l₁ with
  | nil =>
    intro l₂ k hk
    rw [Nat.le_zero.mp hk]
    rfl
  | cons a rest ih =>
    intro l₂ k hk
    cases k with
    | zero => rfl
    | succ k =>
      simp only [List.cons_append, List.take]
      exact congrArg (a :: ·) (ih l₂ k (Nat.le_of_succ_le_succ hk))

/-! Membership characterizations of the covered-core and busy-core lists. -/

theorem mem_coveredPairs (f : DeviceFile) (p : Nat × Nat) :
    p ∈ coveredPairs f ↔ p.1 = f.device_index ∧ p.2 ∈ f.indices := by
  obtain ⟨a, b⟩ := p
  simp only [coveredPairs, List.mem_map, Prod.mk.injEq]
  constructor
  · rintro ⟨i, hi, h1, h2⟩
    exact ⟨h1.symm, h2 ▸ hi⟩
  · rintro ⟨h1, h2⟩
    exact ⟨b, h2, h1.symm, rfl⟩

theorem mem_snapshotBusy (devices : List DeviceWithStatus) (p : Nat × Nat) :
    p ∈ snapshotBusy devices ↔
      ∃ dw ∈ devices, p.1 = dw.device.device_index ∧
        p.2 ∈ nonAvailCores dw.statuses := by
  obtain ⟨a, b⟩ := p
  simp only [snapshotBusy, List.mem_flatMap, List.mem_map, Prod.mk.injEq]
  constructor
  · rintro ⟨dw, hdw, i, hi, h1, h2⟩
    exact ⟨dw, hdw, h1.symm, h2 ▸ hi⟩
  · rintro ⟨dw, hdw, h1, h2⟩
    exact ⟨dw, hdw, b, h2, h1.symm, rfl⟩

theorem mem_ite_multicore (f : DeviceFile) (cores : List Nat) (c : Nat) :
    c ∈ (if f.is_multicore then cores else []) ↔
      f.mode = DeviceMode.multiCore ∧ c ∈ cores := by
  by_cases h : f.mode = DeviceMode.multiCore <;>
    simp [DeviceFile.is_multicore, h]

theorem committedCore_append (found : List DeviceFile) (f : DeviceFile)
    (dw : DeviceWithStatus) (c : Nat) :
    CommittedCore (found ++ [f]) dw c ↔
      CommittedCore found dw c ∨
        (f.device_index = dw.device.device_index ∧
          (c ∈ f.indices ∨
            (f.mode = DeviceMode.multiCore ∧ c ∈ dw.device.cores))) := by
  unfold CommittedCore
  simp only [List.mem_append, List.mem_singleton]
  constructor
  · rintro (h | ⟨g, hg | hg, hrest⟩)
    · exact Or.inl (Or.inl h)
    · exact Or.inl (Or.inr ⟨g, hg, hrest⟩)
    · subst hg; exact Or.inr hrest
  · rintro ((h | ⟨g, hg, hrest⟩) | h)
    · exact Or.inl h
    · exact Or.inr ⟨g, Or.inl hg, hrest⟩
    · exact Or.inr ⟨f, Or.inr rfl, h⟩

/-! Characterization of the seeded committed map under unique device
indices. -/

theorem seedFold_untouched (devices : List DeviceWithStatus)
    (m : List (Nat × List Nat)) (q : Nat)
    (h : ∀ dw ∈ devices, dw.device.device_index ≠ q) :
    alGet (devices.foldl
      (fun m dw => alInsert m dw.device.device_index (nonAvailCores dw.statuses)) m)
      q = alGet m q := by
  induction devices generalizing m with
  | nil => rfl
  | cons hd rest ih =>
    rw [List.foldl_cons, ih _ (fun dw hdw => h dw (List.mem_cons_of_mem _ hdw)),
      alGet_alInsert, if_neg (h hd (List.mem_cons_self _ _))]

theorem seedAllocated_get (devices : List DeviceWithStatus)
    (hnd : IndexNodup devices) :
    ∀ dw ∈ devices, alGet (seedAllocated devices) dw.device.device_index =
      some (nonAvailCores dw.statuses) := by
  have main : ∀ (ds : List DeviceWithStatus) (m : List (Nat × List Nat)),
      (ds.map (fun dw => dw.device.device_index)).Nodup →
      ∀ dw ∈ ds, alGet (ds.foldl
        (fun m dw => alInsert m dw.device.device_index (nonAvailCores dw.statuses)) m)
        dw.device.device_index = some (nonAvailCores dw.statuses) := by
    intro ds
    induction ds with
    | nil => intro m hnd dw hdw; cases hdw
    | cons hd rest ih =>
      intro m hnd dw hdw
      rw [List.map_cons, List.nodup_cons] at hnd
      rcases List.mem_cons.mp hdw with h | h
      · subst h
        rw [List.foldl_cons,
          seedFold_untouched rest _ _
            (fun dw' hdw' heq =>
              hnd.1 (by rw [← heq]; exact List.mem_map_of_mem _ hdw')),
          alGet_alInsert, if_pos rfl]
      · exact ih _ hnd.2 dw h
  exact main devices [] hnd

theorem index_inj (devices : List DeviceWithStatus) (hnd : IndexNodup devices)
    {dw₁ dw₂ : DeviceWithStatus} (h1 : dw₁ ∈ devices) (h2 : dw₂ ∈ devices)
    (he : dw₁.device.device_index = dw₂.device.device_index) : dw₁ = dw₂ :=
  List.inj_on_of_nodup_map hnd h1 h2 he

/-! The selection step preserves the committed-map characterization, the
disjointness invariant and the free-at-selection property. -/

theorem alloc_step (config : DeviceConfig) (devices : List DeviceWithStatus)
    (hnd : IndexNodup devices) (hown : FilesOwned devices)
    (allocated : List (Nat × List Nat)) (found : List DeviceFile)
    (f : DeviceFile) (d : Device) (s : List Nat)
    (hinv : AllocInv devices allocated found)
    (hgood : GoodFound config devices found)
    (hscan : scanDevices config allocated devices = ScanOut.found f d)
    (hget : alGet allocated d.device_index = some s) :
    AllocInv devices
      (alInsert allocated d.device_index
        (s ++ f.indices ++ (if f.is_multicore then d.cores else [])))
      (found ++ [f]) ∧
    GoodFound config devices (found ++ [f]) ∧
    (config.mode = DeviceMode.multiCore → SelFree devices found →
      SelFree devices (found ++ [f])) := by
  obtain ⟨dw₀, hdw₀, hdev, hfile, hmode, harch, s₁, hget₁, hdisj₁, hmcspec₁⟩ :=
    scanDevices_found_spec config allocated devices f d hscan
  have hidx₀ : dw₀.device.device_index = d.device_index := by rw [hdev]
  rw [hget] at hget₁
  obtain rfl : s = s₁ := Option.some.inj hget₁
  obtain ⟨s₂, hget₂, hspec⟩ := hinv dw₀ hdw₀
  rw [hidx₀, hget] at hget₂
  obtain rfl : s = s₂ := Option.some.inj hget₂
  have hfmem_dev : f ∈ dw₀.device.dev_files := by rw [hdev]; exact hfile
  have hfidx : f.device_index = d.device_index := by
    have hx := hown dw₀ hdw₀ f hfmem_dev
    rw [hidx₀] at hx
    exact hx
  obtain ⟨hpw, hsnap, hmodes⟩ := hgood
  refine ⟨?_, ⟨?_, ?_, ?_⟩, ?_⟩
  · -- the committed map stays exactly characterized
    intro dw hdw
    by_cases heq : dw.device.device_index = d.device_index
    · have hdweq : dw = dw₀ :=
        index_inj devices hnd hdw hdw₀ (by rw [heq, hidx₀])
      subst hdweq
      refine ⟨s ++ f.indices ++ (if f.is_multicore then d.cores else []),
        by rw [heq, alGet_alInsert, if_pos rfl], ?_⟩
      intro c
      rw [committedCore_append]
      simp only [List.mem_append, mem_ite_multicore]
      rw [hspec c, hdev]
      simp only [hfidx, true_and]
      tauto
    · obtain ⟨s', hget', hspec'⟩ := hinv dw hdw
      refine ⟨s', ?_, ?_⟩
      · rw [alGet_alInsert, if_neg (fun hh => heq hh.symm)]
        exact hget'
      · intro c
        rw [committedCore_append]
        constructor
        · intro hc
          exact Or.inl ((hspec' c).mp hc)
        · rintro (hcom | ⟨hfi, -⟩)
          · exact (hspec' c).mpr hcom
          · exact absurd (hfi.symm.trans hfidx) heq
  · -- pairwise disjoint covered cores
    rw [List.pairwise_append]
    refine ⟨hpw, List.pairwise_singleton _ _, ?_⟩
    intro g hg f' hf'
    obtain rfl : f' = f := List.mem_singleton.mp hf'
    intro p hpg hpf
    rw [mem_coveredPairs] at hpg hpf
    obtain ⟨hmode_g, dwg, hdwg, hgfile⟩ := hmodes g hg
    have hgidx : g.device_index = dwg.device.device_index := hown dwg hdwg g hgfile
    have hdweq : dwg = dw₀ :=
      index_inj devices hnd hdwg hdw₀
        (by rw [← hgidx, ← hpg.1, hpf.1, hfidx, hidx₀])
    have hcom : CommittedCore found dw₀ p.2 :=
      Or.inr ⟨g, hg, by rw [hgidx, hdweq], Or.inl hpg.2⟩
    exact hdisj₁ p.2 hpf.2 ((hspec p.2).mpr hcom)
  · -- disjointness from the snapshot's busy cores
    intro g hg p hpg hpbusy
    rcases List.mem_append.mp hg with hgf | hgf
    · exact hsnap g hgf p hpg hpbusy
    · obtain rfl : g = f := List.mem_singleton.mp hgf
      rw [mem_coveredPairs] at hpg
      rw [mem_snapshotBusy] at hpbusy
      obtain ⟨dwb, hdwb, hb1, hb2⟩ := hpbusy
      have hdweq : dwb = dw₀ :=
        index_inj devices hnd hdwb hdw₀ (by rw [← hb1, hpg.1, hfidx, hidx₀])
      subst hdweq
      exact hdisj₁ p.2 hpg.2 ((hspec p.2).mpr (Or.inl hb2))
  · -- mode and ownership of every selected file
    intro g hg
    rcases List.mem_append.mp hg with hgf | hgf
    · exact hmodes g hgf
    · obtain rfl : g = f := List.mem_singleton.mp hgf
      exact ⟨hmode, dw₀, hdw₀, hfmem_dev⟩
  · -- the selected device was fully free for a MultiCore request
    intro hmc hself
    intro k hk dw hdw hdwidx c hcom
    have hlen : (found ++ [f]).length = found.length + 1 := by simp
    by_cases hklt : k < found.length
    · rw [listGet_append_left found [f] k hklt hk] at hdwidx
      rw [listTake_append found [f] k (Nat.le_of_lt hklt)] at hcom
      exact hself k hklt dw hdw hdwidx c hcom
    · have hkeq : k = found.length := by omega
      subst hkeq
      rw [listGet_append_last found f hk] at hdwidx
      rw [listTake_append found [f] found.length (Nat.le_refl _),
        List.take_length] at hcom
      have hdweq : dw = dw₀ :=
        index_inj devices hnd hdw hdw₀ (by rw [hdwidx, hfidx, hidx₀])
      subst hdweq
      have hmem := (hspec c).mpr hcom
      rw [hmcspec₁ hmc] at hmem
      cases hmem

/-! The loop invariant carries the disjointness and free-at-selection
properties to the final result. -/

theorem allocLoop_inv (config : DeviceConfig) (devices : List DeviceWithStatus)
    (hnd : IndexNodup devices) (hown : FilesOwned devices) :
    ∀ (n : Nat) (allocated : List (Nat × List Nat)) (found l : List DeviceFile),
      AllocInv devices allocated found →
      GoodFound config devices found →
      (config.mode = DeviceMode.multiCore → SelFree devices found) →
      allocLoop config devices n allocated found = some l →
      l = [] ∨ ((∃ suffix, l = found ++ suffix) ∧ GoodFound config devices l ∧
        (config.mode = DeviceMode.multiCore → SelFree devices l)) := by
  intro n
  induction n with
  | zero =>
    intro allocated found l hinv hgood hsel h
    cases h
    exact Or.inr ⟨⟨[], by simp⟩, hgood, hsel⟩
  | succ n ih =>
    intro allocated found l hinv hgood hsel h
    rw [allocLoop] at h
    split at h
    · cases h
    · cases h
      exact Or.inl rfl
    · rename_i f d hscan
      cases hget : alGet allocated d.device_index with
      | none => rw [hget] at h; cases h
      | some s =>
        rw [hget, Option.some_bind] at h
        obtain ⟨hinv', hgood', hsel'⟩ :=
          alloc_step config devices hnd hown allocated found f d s
            hinv hgood hscan hget
        rcases ih _ _ _ hinv' hgood' (fun hmc => hsel' hmc (hsel hmc)) h with
          h1 | ⟨⟨suffix, hsuf⟩, h2, h3⟩
        · exact Or.inl h1
        · exact Or.inr ⟨⟨[f] ++ suffix, by rw [hsuf, List.append_assoc]⟩, h2, h3⟩

theorem find_devices_in_inv (config : DeviceConfig)
    (devices : List DeviceWithStatus) (l : List DeviceFile)
    (hnd : IndexNodup devices) (hown : FilesOwned devices)
    (hfind : find_devices_in config devices = some l) :
    l = [] ∨ (GoodFound config devices l ∧
      (config.mode = DeviceMode.multiCore → SelFree devices l)) := by
  have hinv : AllocInv devices (seedAllocated devices) [] := by
    intro dw hdw
    exact ⟨nonAvailCores dw.statuses, seedAllocated_get devices hnd dw hdw,
      fun c => by simp [CommittedCore]⟩
  have hgood : GoodFound config devices [] :=
    ⟨List.Pairwise.nil, by simp, by simp⟩
  have hsel : SelFree devices [] := by
    intro k hk
    simp at hk
  rcases allocLoop_inv config devices hnd hown config.count
    (seedAllocated devices) [] l hinv hgood (fun _ => hsel) hfind with
    h | ⟨-, h2, h3⟩
  · exact Or.inl h
  · exact Or.inr ⟨h2, h3⟩

/-- Claim C1: whenever `find_devices_in` returns a non-empty list, the
covered-core sets of the returned device files — cores identified as
(device index, core index) pairs — are pairwise disjoint, and each is
disjoint from the cores marked non-Available in the input snapshot.  The
hypotheses are the spec's data-model invariants: device indices are unique
and each file records its owning device's index. -/
theorem find_devices_in_no_double_alloc (config : DeviceConfig)
    (devices : List DeviceWithStatus) (l : List DeviceFile)
    (hnd : IndexNodup devices) (hown : FilesOwned devices)
    (hfind : find_devices_in config devices = some l) (hne : l ≠ []) :
    List.Pairwise DisjointCover l ∧
      ∀ f ∈ l, ∀ p ∈ coveredPairs f, p ∉ snapshotBusy devices := by
  rcases find_devices_in_inv config devices l hnd hown hfind with h | ⟨⟨h1, h2, -⟩, -⟩
  · exact absurd h hne
  · exact ⟨h1, h2⟩

/-- Claim C5: for a MultiCore request, every selected file comes from a
device that had no committed core at the moment of selection — no core
non-Available in the snapshot and no core covered by any file selected
earlier in the same call. -/
theorem find_devices_in_multicore_exclusive (config : DeviceConfig)
    (devices : List DeviceWithStatus) (l : List DeviceFile)
    (hnd : IndexNodup devices) (hown : FilesOwned devices)
    (hmode : config.mode = DeviceMode.multiCore)
    (hfind : find_devices_in config devices = some l) :
    ∀ (k : Nat) (hk : k < l.length), ∀ dw ∈ devices,
      dw.device.device_index = (l.get ⟨k, hk⟩).device_index →
      ∀ c, ¬ CommittedCore (l.take k) dw c := by
  rcases find_devices_in_inv config devices l hnd hown hfind with h | ⟨-, h3⟩
  · subst h
    intro k hk
    simp at hk
  · exact h3 hmode

/-! Unfolding lemmas for the device scan. -/

theorem scanDevices_cons_arch (config : DeviceConfig)
    (allocated : List (Nat × List Nat)) (dw : DeviceWithStatus)
    (rest : List DeviceWithStatus) (harch : ¬config.arch = dw.device.arch) :
    scanDevices config allocated (dw :: rest) =
      scanDevices config allocated rest := by
  rw [scanDevices, if_neg harch]

theorem scanDevices_cons_none (config : DeviceConfig)
    (allocated : List (Nat × List Nat)) (dw : DeviceWithStatus)
    (rest : List DeviceWithStatus) (harch : config.arch = dw.device.arch)
    (hget : alGet allocated dw.device.device_index = none) :
    scanDevices config allocated (dw :: rest) =
      if config.mode = DeviceMode.multiCore ∨
          hasModeFile config.mode dw.device.dev_files then ScanOut.panic
      else scanDevices config allocated rest := by
  rw [scanDevices, if_pos harch, hget]

theorem scanDevices_cons_some (config : DeviceConfig)
    (allocated : List (Nat × List Nat)) (dw : DeviceWithStatus)
    (rest : List DeviceWithStatus) (s : List Nat)
    (harch : config.arch = dw.device.arch)
    (hget : alGet allocated dw.device.device_index = some s) :
    scanDevices config allocated (dw :: rest) =
      if config.mode = DeviceMode.multiCore ∧ s ≠ [] then
        scanDevices config allocated rest
      else
        match probeFiles config.mode s dw.device.dev_files with
        | none => scanDevices config allocated rest
        | some f => ScanOut.found f dw.device := by
  rw [scanDevices, if_pos harch, hget]

/-! Congruence of the allocation engine under permutation of the snapshot
lists — the only internal nondeterminism hash maps could introduce. -/

theorem probeFiles_congr (mode : DeviceMode) {s t : List Nat} (hp : s.Perm t) :
    ∀ fs, probeFiles mode s fs = probeFiles mode t fs := by
  intro fs
  induction fs with
  | nil => rfl
  | cons f rest ih =>
    rw [probeFiles, probeFiles]
    have harg : (fun i => decide (i ∈ s)) = (fun i => decide (i ∈ t)) := by
      funext i
      rw [decide_eq_decide]
      exact hp.mem_iff
    rw [harg, ih]

theorem mapEquiv_insert {m m' : List (Nat × List Nat)} (h : MapEquiv m m')
    (k : Nat) {s t : List Nat} (hst : s.Perm t) :
    MapEquiv (alInsert m k s) (alInsert m' k t) := by
  intro q
  rw [MapEquiv] at h
  by_cases hk : k = q
  · rw [alGet_alInsert, alGet_alInsert, if_pos hk, if_pos hk]
    exact hst
  · rw [alGet_alInsert, alGet_alInsert, if_neg hk, if_neg hk]
    exact h q

theorem perm_ne_nil_iff {s t : List Nat} (h : s.Perm t) : s = [] ↔ t = [] := by
  constructor
  · intro hs
    subst hs
    exact h.symm.eq_nil
  · intro ht
    subst ht
    exact h.eq_nil

theorem scanDevices_congr (config : DeviceConfig)
    {ds ds' : List DeviceWithStatus} (hsd : SameDevices ds ds') :
    ∀ {m m' : List (Nat × List Nat)}, MapEquiv m m' →
      scanDevices config m ds = scanDevices config m' ds' := by
  induction hsd with
  | nil => intro m m' hme; rfl
  | cons hab hrest ih =>
    rename_i a b as bs
    intro m m' hme
    obtain ⟨hdev, hperm⟩ := hab
    by_cases harch : config.arch = a.device.arch
    · have harch' : config.arch = b.device.arch := by rw [← hdev]; exact harch
      have hk := hme a.device.device_index
      cases hm1 : alGet m a.device.device_index with
      | none =>
        have hm2 : alGet m' b.device.device_index = none := by
          rw [← hdev]
          cases hx : alGet m' a.device.device_index with
          | none => rfl
          | some t => rw [hm1, hx] at hk; cases hk
        rw [scanDevices_cons_none config m a as harch hm1,
          scanDevices_cons_none config m' b bs harch' hm2, hdev, ih hme]
      | some s =>
        obtain ⟨t, hm2, hst⟩ :
            ∃ t, alGet m' b.device.device_index = some t ∧ s.Perm t := by
          rw [← hdev]
          cases hx : alGet m' a.device.device_index with
          | none => rw [hm1, hx] at hk; cases hk
          | some t =>
            rw [hm1, hx] at hk
            exact ⟨t, rfl, hk⟩
        rw [scanDevices_cons_some config m a as s harch hm1,
          scanDevices_cons_some config m' b bs t harch' hm2, hdev, ih hme,
          probeFiles_congr config.mode hst]
        by_cases hc : config.mode = DeviceMode.multiCore ∧ s ≠ []
        · rw [if_pos hc,
            if_pos ⟨hc.1, fun ht => hc.2 ((perm_ne_nil_iff hst).mpr ht)⟩]
        · rw [if_neg hc,
            if_neg (fun hc' => hc ⟨hc'.1, fun hs => hc'.2 ((perm_ne_nil_iff hst).mp hs)⟩)]
    · have harch' : ¬config.arch = b.device.arch := by rw [← hdev]; exact harch
      rw [scanDevices_cons_arch config m a as harch,
        scanDevices_cons_arch config m' b bs harch', ih hme]

theorem allocLoop_congr (config : DeviceConfig) :
    ∀ (n : Nat) {ds ds' : List DeviceWithStatus}
      {m m' : List (Nat × List Nat)} (found : List DeviceFile),
      SameDevices ds ds' → MapEquiv m m' →
      allocLoop config ds n m found = allocLoop config ds' n m' found := by
  intro n
  induction n with
  | zero => intros; rfl
  | succ n ih =>
    intro ds ds' m m' found hsd hme
    rw [allocLoop, allocLoop, scanDevices_congr config hsd hme]
    cases hscan : scanDevices config m' ds' with
    | panic => rfl
    | notFound => rfl
    | found f d =>
      show ((alGet m d.device_index).bind fun used =>
          allocLoop config ds n
            (alInsert m d.device_index
              (used ++ f.indices ++ if f.is_multicore then d.cores else []))
            (found ++ [f])) =
        ((alGet m' d.device_index).bind fun used =>
          allocLoop config ds' n
            (alInsert m' d.device_index
              (used ++ f.indices ++ if f.is_multicore then d.cores else []))
            (found ++ [f]))
      have hk := hme d.device_index
      cases h1 : alGet m d.device_index with
      | none =>
        cases h2 : alGet m' d.device_index with
        | none => rfl
        | some t => rw [h1, h2] at hk; cases hk
      | some s =>
        cases h2 : alGet m' d.device_index with
        | none => rw [h1, h2] at hk; cases hk
        | some t =>
          rw [h1, h2] at hk
          rw [Option.some_bind, Option.some_bind]
          exact ih (found ++ [f]) hsd
            (mapEquiv_insert hme _ ((hk.append_right _).append_right _))

theorem nonAvailCores_perm {s t : List (Nat × CoreStatus)} (h : s.Perm t) :
    (nonAvailCores s).Perm (nonAvailCores t) :=
  (h.filter _).map _

theorem seed_equiv {ds ds' : List DeviceWithStatus}
    (hsd : SameDevices ds ds') :
    MapEquiv (seedAllocated ds) (seedAllocated ds') := by
  have main : ∀ {as bs : List DeviceWithStatus}, SameDevices as bs →
      ∀ {m m' : List (Nat × List Nat)}, MapEquiv m m' →
      MapEquiv (as.foldl
        (fun m dw => alInsert m dw.device.device_index (nonAvailCores dw.statuses)) m)
        (bs.foldl
          (fun m dw => alInsert m dw.device.device_index (nonAvailCores dw.statuses)) m') := by
    intro as bs hab
    induction hab with
    | nil => intro m m' h; exact h
    | cons hab hrest ih =>
      rename_i a b as' bs'
      intro m m' h
      obtain ⟨hdev, hperm⟩ := hab
      rw [List.foldl_cons, List.foldl_cons]
      refine ih ?_
      rw [hdev]
      exact mapEquiv_insert h _ (nonAvailCores_perm hperm)
  exact main hsd (fun k => trivial)

/-- Claim C8: `find_devices_in` is a deterministic function of its inputs —
for the same request and the same devices, with status snapshots that agree
as maps (listed in any order, as a hash map may iterate them), it returns
the same list of device files in the same order. -/
theorem find_devices_in_deterministic (config : DeviceConfig)
    (ds ds' : List DeviceWithStatus) (h : SameDevices ds ds') :
    find_devices_in config ds = find_devices_in config ds' := by
  rw [find_devices_in, find_devices_in]
  exact allocLoop_congr config config.count [] h (seed_equiv h)

/-! Lemmas about the status probe `get_device_status`. -/

theorem get_device_status_error {r : OpenResult} {e : OsError}
    (h : get_device_status r = Except.error e) :
    r = OpenResult.failed e ∧ e.raw_os_error ≠ some 16 := by
  cases r with
  | opened => cases h
  | failed err =>
    rw [get_device_status] at h
    split at h
    · cases h
    · rename_i hbusy
      cases h
      refine ⟨rfl, fun h16 => hbusy ?_⟩
      rw [h16]
      rfl

theorem get_device_status_nonbusy {err : OsError}
    (h : err.raw_os_error ≠ some 16) :
    get_device_status (OpenResult.failed err) = Except.error err := by
  have hcond : ¬ err.raw_os_error.getD 0 = 16 := by
    intro h16
    apply h
    cases ho : err.raw_os_error with
    | none =>
      rw [ho] at h16
      exact absurd h16 (by decide)
    | some x =>
      rw [ho] at h16
      simp only [Option.getD_some] at h16
      rw [h16]
  rw [get_device_status, if_neg hcond]

/-- Claim C4: `get_device_status` maps a successful open to Available,
maps a failure with raw OS error 16 ("resource busy") — and only such a
failure — to Occupied, and propagates any other failure as the error
itself, never interpreting it as occupancy. -/
theorem get_device_status_contract (res : OpenResult) :
    (get_device_status res = Except.ok DeviceStatus.available ↔
      res = OpenResult.opened) ∧
    (get_device_status res = Except.ok DeviceStatus.occupied ↔
      ∃ e, res = OpenResult.failed e ∧ e.raw_os_error = some 16) ∧
    (∀ e, get_device_status res = Except.error e ↔
      (res = OpenResult.failed e ∧ e.raw_os_error ≠ some 16)) := by
  cases res with
  | opened =>
    refine ⟨by simp [get_device_status], by simp [get_device_status], ?_⟩
    intro e
    simp [get_device_status]
  | failed err =>
    by_cases h : err.raw_os_error.getD 0 = 16
    · have h16 : err.raw_os_error = some 16 := by
        cases ho : err.raw_os_error with
        | none =>
          rw [ho] at h
          exact absurd h (by decide)
        | some x =>
          rw [ho] at h
          simp only [Option.getD_some] at h
          rw [h]
      have hgds : get_device_status (OpenResult.failed err) =
          Except.ok DeviceStatus.occupied := by
        rw [get_device_status, if_pos h]
      refine ⟨?_, ?_, ?_⟩
      · rw [hgds]
        simp
      · rw [hgds]
        constructor
        · intro _
          exact ⟨err, rfl, h16⟩
        · intro _
          rfl
      · intro e
        rw [hgds]
        constructor
        · intro hx
          cases hx
        · rintro ⟨he, hne⟩
          cases he
          exact absurd h16 hne
    · have h16 : err.raw_os_error ≠ some 16 := by
        intro hx
        rw [hx] at h
        exact h rfl
      have hgds : get_device_status (OpenResult.failed err) =
          Except.error err := by
        rw [get_device_status, if_neg h]
      refine ⟨?_, ?_, ?_⟩
      · rw [hgds]
        simp
      · rw [hgds]
        constructor
        · intro hx
          cases hx
        · rintro ⟨e, he, h16p⟩
          cases he
          exact absurd h16p h16
      · intro e
        rw [hgds]
        constructor
        · intro hx
          cases hx
          exact ⟨rfl, h16⟩
        · rintro ⟨he, -⟩
          cases he
          rfl

/-! Lemmas about the per-core status map built by `get_status_all`. -/

theorem alGet_foldl_insert_const :
    ∀ (cs : List Nat) (m : List (Nat × CoreStatus)) (v : CoreStatus) (c : Nat),
      alGet (cs.foldl (fun acc x => alInsert acc x v) m) c =
        if c ∈ cs then some v else alGet m c := by
  intro cs
  induction cs with
  | nil => intro m v c; simp
  | cons x rest ih =>
    intro m v c
    rw [List.foldl_cons, ih]
    by_cases hc : c ∈ rest
    · rw [if_pos hc, if_pos (List.mem_cons_of_mem _ hc)]
    · rw [if_neg hc, alGet_alInsert]
      by_cases hx : x = c
      · rw [if_pos hx, if_pos (by rw [← hx]; exact List.mem_cons_self _ _)]
      · rw [if_neg hx, if_neg]
        intro hmem
        rcases List.mem_cons.mp hmem with h | h
        · exact hx h.symm
        · exact hc h

theorem alGet_markOccupied (file : DeviceFile) (device : Device)
    (m : List (Nat × CoreStatus)) (c : Nat) :
    alGet (markOccupied file device m) c =
      if c ∈ occupyCores file device then some (CoreStatus.occupied file.name)
      else alGet m c :=
  alGet_foldl_insert_const _ _ _ _

theorem alGet_map_available :
    ∀ (cs : List Nat) (c : Nat),
      alGet (cs.map (fun x => (x, CoreStatus.available))) c =
        if c ∈ cs then some CoreStatus.available else none := by
  intro cs
  induction cs with
  | nil => intro c; rfl
  | cons x rest ih =>
    intro c
    rw [List.map_cons]
    show (if x = c then some CoreStatus.available else
      alGet (rest.map (fun x => (x, CoreStatus.available))) c) = _
    by_cases hx : x = c
    · rw [if_pos hx, if_pos (by rw [← hx]; exact List.mem_cons_self _ _)]
    · rw [if_neg hx, ih]
      by_cases hc : c ∈ rest
      · rw [if_pos hc, if_pos (List.mem_cons_of_mem _ hc)]
      · rw [if_neg hc, if_neg]
        intro hmem
        rcases List.mem_cons.mp hmem with h | h
        · exact hx h.symm
        · exact hc h

theorem statusLoop_preserves_occupied (probe : String → OpenResult)
    (device : Device) :
    ∀ (fs : List DeviceFile) (m m' : List (Nat × CoreStatus)),
      statusLoop probe device fs m = Except.ok m' →
      ∀ c, (∃ s, alGet m c = some (CoreStatus.occupied s)) →
        ∃ s, alGet m' c = some (CoreStatus.occupied s) := by
  intro fs
  induction fs with
  | nil =>
    intro m m' h c hc
    cases h
    exact hc
  | cons file rest ih =>
    intro m m' h c hc
    rw [statusLoop] at h
    split at h
    · cases h
    · split at h
      · refine ih _ _ h c ?_
        rw [alGet_markOccupied]
        by_cases hmem : c ∈ occupyCores file device
        · exact ⟨file.name, by rw [if_pos hmem]⟩
        · rw [if_neg hmem]
          exact hc
      · exact ih _ _ h c hc

theorem statusLoop_multicore (probe : String → OpenResult) (device : Device) :
    ∀ (fs : List DeviceFile) (m m' : List (Nat × CoreStatus)) (f : DeviceFile),
      f ∈ fs → f.mode = DeviceMode.multiCore →
      get_device_status (probe f.path) = Except.ok DeviceStatus.occupied →
      statusLoop probe device fs m = Except.ok m' →
      ∀ c ∈ device.cores, ∃ s, alGet m' c = some (CoreStatus.occupied s) := by
  intro fs
  induction fs with
  | nil =>
    intro m m' f hf
    cases hf
  | cons g rest ih =>
    intro m m' f hf hmc hocc h c hc
    rw [statusLoop] at h
    split at h
    · cases h
    · rename_i s hs
      split at h
      · rcases List.mem_cons.mp hf with hfg | hfg
        · subst hfg
          refine statusLoop_preserves_occupied probe device rest _ _ h c ?_
          rw [alGet_markOccupied]
          have hmem : c ∈ occupyCores f device :=
            List.mem_append.mpr
              (Or.inr ((mem_ite_multicore f device.cores c).mpr ⟨hmc, hc⟩))
          exact ⟨f.name, by rw [if_pos hmem]⟩
        · exact ih _ _ f hfg hmc hocc h c hc
      · rename_i hso
        rcases List.mem_cons.mp hf with hfg | hfg
        · subst hfg
          exact absurd (Except.ok.inj (hs.symm.trans hocc)) hso
        · exact ih _ _ f hfg hmc hocc h c hc

/-- Claim C3: if `get_status_all` succeeds and some MultiCore-mode file of
the device probed Occupied, then every core of the device's core set is
mapped to Occupied in the returned status map — including cores not
enumerated in that file's own index list. -/
theorem get_status_all_multicore_lockout (probe : String → OpenResult)
    (device : Device) (m : List (Nat × CoreStatus)) (f : DeviceFile)
    (hok : get_status_all probe device = Except.ok m)
    (hf : f ∈ device.dev_files) (hmc : f.mode = DeviceMode.multiCore)
    (hocc : get_device_status (probe f.path) = Except.ok DeviceStatus.occupied) :
    ∀ c ∈ device.cores, ∃ s, alGet m c = some (CoreStatus.occupied s) :=
  statusLoop_multicore probe device device.dev_files _ _ f hf hmc hocc hok

/-! Error propagation of the status resolver. -/

theorem statusLoop_error (probe : String → OpenResult) (device : Device) :
    ∀ (fs : List DeviceFile) (m : List (Nat × CoreStatus)) (f : DeviceFile)
      (err : OsError),
      f ∈ fs → probe f.path = OpenResult.failed err →
      err.raw_os_error ≠ some 16 →
      ∃ e, statusLoop probe device fs m = Except.error e ∧
        ∃ g ∈ fs, probe g.path = OpenResult.failed e ∧
          e.raw_os_error ≠ some 16 := by
  intro fs
  induction fs with
  | nil =>
    intro m f err hf
    cases hf
  | cons g rest ih =>
    intro m f err hf hpf hbusy
    rw [statusLoop]
    cases hgs : get_device_status (probe g.path) with
    | error e =>
      obtain ⟨hfail, hne⟩ := get_device_status_error hgs
      exact ⟨e, rfl, g, List.mem_cons_self _ _, hfail, hne⟩
    | ok s =>
      have hfr : f ∈ rest := by
        rcases List.mem_cons.mp hf with hfg | hfg
        · subst hfg
          rw [hpf, get_device_status_nonbusy hbusy] at hgs
          cases hgs
        · exact hfg
      by_cases hso : s = DeviceStatus.occupied
      · obtain ⟨e, he, g', hg', hx⟩ :=
          ih (markOccupied g device m) f err hfr hpf hbusy
        refine ⟨e, ?_, g', List.mem_cons_of_mem _ hg', hx⟩
        show (if s = DeviceStatus.occupied then
          statusLoop probe device rest (markOccupied g device m)
          else statusLoop probe device rest m) = Except.error e
        rw [if_pos hso]
        exact he
      · obtain ⟨e, he, g', hg', hx⟩ := ih m f err hfr hpf hbusy
        refine ⟨e, ?_, g', List.mem_cons_of_mem _ hg', hx⟩
        show (if s = DeviceStatus.occupied then
          statusLoop probe device rest (markOccupied g device m)
          else statusLoop probe device rest m) = Except.error e
        rw [if_neg hso]
        exact he

theorem expand_status_error (probe : String → OpenResult) :
    ∀ (devs : List Device) (device : Device), device ∈ devs →
      (∃ e, get_status_all probe device = Except.error e) →
      ∃ e, expand_status probe devs = Except.error e := by
  intro devs
  induction devs with
  | nil =>
    intro device h
    cases h
  | cons d rest ih =>
    intro device hdev herr
    rw [expand_status]
    cases hg : get_status_all probe d with
    | error e => exact ⟨e, rfl⟩
    | ok m =>
      rcases List.mem_cons.mp hdev with h | h
      · subst h
        obtain ⟨e, he⟩ := herr
        rw [he] at hg
        cases hg
      · obtain ⟨e, he⟩ := ih device h herr
        refine ⟨e, ?_⟩
        show (match expand_status probe rest with
          | Except.error e => Except.error e
          | Except.ok tl =>
            Except.ok ({ device := d, statuses := m } :: tl)) = Except.error e
        rw [he]

/-- Claim C7: a filesystem error other than "resource busy" while probing
any device file makes `get_status_all` return an error — the error of a
probed file, not a status map — and makes `expand_status` return an error
for any device list containing the device. -/
theorem status_error_propagates (probe : String → OpenResult)
    (device : Device) (f : DeviceFile) (err : OsError)
    (hf : f ∈ device.dev_files) (hpf : probe f.path = OpenResult.failed err)
    (hbusy : err.raw_os_error ≠ some 16) :
    (∃ e, get_status_all probe device = Except.error e ∧
      ∃ g ∈ device.dev_files, probe g.path = OpenResult.failed e ∧
        e.raw_os_error ≠ some 16) ∧
    ∀ devs, device ∈ devs → ∃ e, expand_status probe devs = Except.error e := by
  obtain ⟨e, he, hx⟩ :=
    statusLoop_error probe device device.dev_files (new_status_map device)
      f err hf hpf hbusy
  refine ⟨⟨e, he, hx⟩, ?_⟩
  intro devs hdev
  exact expand_status_error probe devs device hdev ⟨e, he⟩

/-! Full characterization of the status map for well-covered devices. -/

theorem statusInv_congr (device : Device) {Q R : Nat → Prop}
    (h : ∀ c, Q c ↔ R c) {m : List (Nat × CoreStatus)}
    (hinv : StatusInv device Q m) : StatusInv device R m := by
  intro c
  obtain ⟨h1, h2⟩ := hinv c
  refine ⟨h1, fun hc => ⟨fun hr => (h2 hc).1 ((h c).mpr hr),
    fun hr => (h2 hc).2 (fun hq => hr ((h c).mp hq))⟩⟩

theorem statusInv_mark (device : Device) {Q : Nat → Prop}
    {m : List (Nat × CoreStatus)} (hinv : StatusInv device Q m)
    (file : DeviceFile)
    (hsub : ∀ c ∈ occupyCores file device, c ∈ device.cores) :
    StatusInv device (fun c => Q c ∨ c ∈ occupyCores file device)
      (markOccupied file device m) := by
  intro c
  obtain ⟨h1, h2⟩ := hinv c
  constructor
  · intro hc
    rw [alGet_markOccupied, if_neg (fun hmem => hc (hsub c hmem))]
    exact h1 hc
  · intro hc
    constructor
    · rintro (hq | hmem)
      · by_cases hmem : c ∈ occupyCores file device
        · exact ⟨file.name, by rw [alGet_markOccupied, if_pos hmem]⟩
        · rw [alGet_markOccupied, if_neg hmem]
          exact (h2 hc).1 hq
      · exact ⟨file.name, by rw [alGet_markOccupied, if_pos hmem]⟩
    · intro hnr
      have hq : ¬ Q c := fun hq => hnr (Or.inl hq)
      have hmem : c ∉ occupyCores file device := fun hm => hnr (Or.inr hm)
      rw [alGet_markOccupied, if_neg hmem]
      exact (h2 hc).2 hq

theorem statusLoop_inv (probe : String → OpenResult) (device : Device) :
    ∀ (fs : List DeviceFile) (m m' : List (Nat × CoreStatus)) (Q : Nat → Prop),
      StatusInv device Q m →
      (∀ f ∈ fs, ∀ i ∈ f.indices, i ∈ device.cores) →
      statusLoop probe device fs m = Except.ok m' →
      StatusInv device (fun c => Q c ∨ OccCovered probe device fs c) m' := by
  intro fs
  induction fs with
  | nil =>
    intro m m' Q hinv hsub h
    cases h
    refine statusInv_congr device ?_ hinv
    intro c
    simp [OccCovered]
  | cons g rest ih =>
    intro m m' Q hinv hsub h
    rw [statusLoop] at h
    split at h
    · cases h
    · rename_i s hs
      split at h
      · rename_i hso
        rw [hso] at hs
        have hsubg : ∀ c ∈ occupyCores g device, c ∈ device.cores := by
          intro c hc
          rcases List.mem_append.mp hc with h1 | h1
          · exact hsub g (List.mem_cons_self _ _) c h1
          · rw [mem_ite_multicore] at h1
            exact h1.2
        have hres := ih _ _ _ (statusInv_mark device hinv g hsubg)
          (fun f hf => hsub f (List.mem_cons_of_mem _ hf)) h
        refine statusInv_congr device ?_ hres
        intro c
        constructor
        · rintro ((hq | hg) | hr)
          · exact Or.inl hq
          · exact Or.inr ⟨g, List.mem_cons_self _ _, hs, hg⟩
          · obtain ⟨f, hf, hx⟩ := hr
            exact Or.inr ⟨f, List.mem_cons_of_mem _ hf, hx⟩
        · rintro (hq | ⟨f, hf, hocc, hcov⟩)
          · exact Or.inl (Or.inl hq)
          · rcases List.mem_cons.mp hf with h1 | h1
            · subst h1
              exact Or.inl (Or.inr hcov)
            · exact Or.inr ⟨f, h1, hocc, hcov⟩
      · rename_i hso
        have hres := ih _ _ _ hinv
          (fun f hf => hsub f (List.mem_cons_of_mem _ hf)) h
        refine statusInv_congr device ?_ hres
        intro c
        constructor
        · rintro (hq | hr)
          · exact Or.inl hq
          · obtain ⟨f, hf, hx⟩ := hr
            exact Or.inr ⟨f, List.mem_cons_of_mem _ hf, hx⟩
        · rintro (hq | ⟨f, hf, hocc, hcov⟩)
          · exact Or.inl hq
          · rcases List.mem_cons.mp hf with h1 | h1
            · subst h1
              exact absurd (Except.ok.inj (hs.symm.trans hocc)) hso
            · exact Or.inr ⟨f, h1, hocc, hcov⟩

theorem new_status_map_inv (device : Device) :
    StatusInv device (fun _ => False) (new_status_map device) := by
  intro c
  have hget : alGet (new_status_map device) c =
      if c ∈ device.cores then some CoreStatus.available else none :=
    alGet_map_available device.cores c
  constructor
  · intro hc
    rw [hget, if_neg hc]
  · intro hc
    exact ⟨fun hq => absurd hq (fun hx => hx),
      fun _ => by rw [hget, if_pos hc]⟩

/-- Claim C9: for a device whose files' index lists all lie inside its core
set, a successful `get_status_all` returns a complete per-core map — its key
set is exactly the device's core set, each core is Available unless some
occupied file covers it (directly or via MultiCore lockout), and covered
cores are Occupied. -/
theorem get_status_all_complete (probe : String → OpenResult)
    (device : Device) (m : List (Nat × CoreStatus))
    (hsub : ∀ f ∈ device.dev_files, ∀ i ∈ f.indices, i ∈ device.cores)
    (hok : get_status_all probe device = Except.ok m) :
    (∀ c, (∃ st, alGet m c = some st) ↔ c ∈ device.cores) ∧
    (∀ c ∈ device.cores,
      (¬ OccCovered probe device device.dev_files c →
        alGet m c = some CoreStatus.available) ∧
      (OccCovered probe device device.dev_files c →
        ∃ s, alGet m c = some (CoreStatus.occupied s))) := by
  have hres := statusLoop_inv probe device device.dev_files
    (new_status_map device) m (fun _ => False)
    (new_status_map_inv device) hsub hok
  have hres2 : StatusInv device (OccCovered probe device device.dev_files) m :=
    statusInv_congr device (fun c => by simp) hres
  constructor
  · intro c
    obtain ⟨h1, h2⟩ := hres2 c
    constructor
    · rintro ⟨st, hst⟩
      by_contra hc
      rw [h1 hc] at hst
      cases hst
    · intro hc
      by_cases hq : OccCovered probe device device.dev_files c
      · obtain ⟨s, hs⟩ := (h2 hc).1 hq
        exact ⟨_, hs⟩
      · exact ⟨_, (h2 hc).2 hq⟩
  · intro c hc
    exact ⟨((hres2 c).2 hc).2, ((hres2 c).2 hc).1⟩

/-! Witnesses: the claim theorems applied at the concrete example device. -/

/-- Witness for claim C1 at the example device: the hypotheses hold by
evaluation and the returned singleton allocation is disjoint from the
snapshot. -/
theorem no_double_alloc_witness :
    IndexNodup exDevices ∧ FilesOwned exDevices ∧
      find_devices_in exConfig exDevices = some [exFile0] ∧
      ([exFile0] ≠ ([] : List DeviceFile)) ∧
      (List.Pairwise DisjointCover [exFile0] ∧
        ∀ f ∈ [exFile0], ∀ p ∈ coveredPairs f, p ∉ snapshotBusy exDevices) :=
  ⟨by unfold IndexNodup; decide, by unfold FilesOwned; decide, by decide,
    by decide,
    find_devices_in_no_double_alloc exConfig exDevices [exFile0]
      (by unfold IndexNodup; decide) (by unfold FilesOwned; decide)
      (by decide) (by decide)⟩

/-- Witness for claim C2 at the example device. -/
theorem all_or_nothing_witness :
    ∃ l, find_devices_in exConfig exDevices = some l ∧
      (l = [] ∨ l.length = exConfig.count) ∧
      (exConfig.count = 0 → l = []) :=
  find_devices_in_all_or_nothing exConfig exDevices

/-- Witness for claim C3 at the example device with its MultiCore file
probed busy: core 0 — absent from that file's own index list — is
Occupied. -/
theorem multicore_lockout_witness :
    get_status_all exProbeBusy exDevice = Except.ok exBusyMap ∧
      exMulti ∈ exDevice.dev_files ∧
      exMulti.mode = DeviceMode.multiCore ∧
      get_device_status (exProbeBusy exMulti.path) =
        Except.ok DeviceStatus.occupied ∧
      (∃ s, alGet exBusyMap 0 = some (CoreStatus.occupied s)) := by
  refine ⟨rfl, by decide, rfl, rfl, ?_⟩
  exact get_status_all_multicore_lockout exProbeBusy exDevice exBusyMap exMulti
    rfl (by decide) rfl rfl 0 (by decide)

/-- Witness for claim C4 at a busy failure and at a permission failure. -/
theorem probe_contract_witness :
    (get_device_status (OpenResult.failed exBusyErr) =
        Except.ok DeviceStatus.occupied ↔
      ∃ e, OpenResult.failed exBusyErr = OpenResult.failed e ∧
        e.raw_os_error = some 16) ∧
    (get_device_status (OpenResult.failed exPermErr) =
        Except.error exPermErr ↔
      (OpenResult.failed exPermErr = OpenResult.failed exPermErr ∧
        exPermErr.raw_os_error ≠ some 16)) :=
  ⟨(get_device_status_contract (OpenResult.failed exBusyErr)).2.1,
    (get_device_status_contract (OpenResult.failed exPermErr)).2.2 exPermErr⟩

/-- Witness for claim C5 at the example device: the MultiCore selection at
slot 0 found no committed core. -/
theorem multicore_exclusive_witness :
    IndexNodup exDevices ∧ FilesOwned exDevices ∧
      exConfigMC.mode = DeviceMode.multiCore ∧
      find_devices_in exConfigMC exDevices = some [exMulti] ∧
      ¬ CommittedCore (List.take 0 [exMulti]) exDW 0 :=
  ⟨by unfold IndexNodup; decide, by unfold FilesOwned; decide, rfl, by decide,
    find_devices_in_multicore_exclusive exConfigMC exDevices [exMulti]
      (by unfold IndexNodup; decide) (by unfold FilesOwned; decide) rfl
      (by decide) 0 (by decide) exDW (by decide) (by decide) 0⟩

/-- Witness for claim C6 at the example device. -/
theorem mode_arch_witness :
    ∃ l, find_devices_in exConfig exDevices = some l ∧
      (∀ f ∈ l, f.mode = exConfig.mode ∧
        ∃ dw ∈ exDevices, f ∈ dw.device.dev_files ∧
          dw.device.arch = exConfig.arch) ∧
      ((∀ dw ∈ exDevices, dw.device.arch ≠ exConfig.arch) → l = []) :=
  find_devices_in_mode_arch exConfig exDevices

/-- Witness for claim C7 at the example device with a permission failure on
`npu0pe1`: both the resolver and the aggregate return an error. -/
theorem error_propagates_witness :
    exFile1 ∈ exDevice.dev_files ∧
      exProbeErr exFile1.path = OpenResult.failed exPermErr ∧
      exPermErr.raw_os_error ≠ some 16 ∧
      (∃ e, get_status_all exProbeErr exDevice = Except.error e ∧
        ∃ g ∈ exDevice.dev_files, exProbeErr g.path = OpenResult.failed e ∧
          e.raw_os_error ≠ some 16) ∧
      (∃ e, expand_status exProbeErr [exDevice] = Except.error e) := by
  have H := status_error_propagates exProbeErr exDevice exFile1 exPermErr
    (by decide) rfl (by decide)
  exact ⟨by decide, rfl, by decide, H.1, H.2 [exDevice] (by decide)⟩

/-- Witness for claim C8: permuting the example snapshot does not change the
allocation. -/
theorem deterministic_witness :
    SameDevices exDevices exDevicesRev ∧
      find_devices_in exConfig exDevices =
        find_devices_in exConfig exDevicesRev :=
  have hSD : SameDevices exDevices exDevicesRev :=
    List.Forall₂.cons ⟨rfl, List.Perm.swap _ _ _⟩ List.Forall₂.nil
  ⟨hSD, find_devices_in_deterministic exConfig exDevices exDevicesRev hSD⟩

/-- Witness for claim C9 at the example device under the busy probe: core 0
is a key of the map and is Occupied because the busy MultiCore file locks
it. -/
theorem status_complete_witness :
    (∀ f ∈ exDevice.dev_files, ∀ i ∈ f.indices, i ∈ exDevice.cores) ∧
      get_status_all exProbeBusy exDevice = Except.ok exBusyMap ∧
      ((∃ st, alGet exBusyMap 0 = some st) ↔ 0 ∈ exDevice.cores) ∧
      (∃ s, alGet exBusyMap 0 = some (CoreStatus.occupied s)) := by
  have H := get_status_all_complete exProbeBusy exDevice exBusyMap
    (by decide) rfl
  exact ⟨by decide, rfl, H.1 0,
    (H.2 0 (by decide)).2 ⟨exMulti, by decide, rfl, by decide⟩⟩

end DeviceApi
